import Mathlib

/-!
Monitoring-Ticks: verification of the monitoring/alerting core.

Shallow embedding of the tick-monitoring dashboard's core subsystems:

* the per-instrument inactivity alert engine (`useInactivityAlerts` hook),
* the feed connectors (`useTickData` and `useUpstoxTickData` hooks),
* the market-session oracle (`market-timings.ts`).

JavaScript numbers that carry prices are modelled as rationals (`ℚ`);
timestamps (milliseconds) as integers (`ℤ`).  `Map`s keyed by instrument
token become association lists; `setTimeout`/`clearTimeout` become an
explicit pool of pending timers identified by a fresh counter.  Browser-only
side effects (Web Audio oscillators, desktop notifications) are reduced to
the bits of state the code keeps about them (a per-instrument "sound is
playing" flag); random alert ids are dropped.
-/

namespace MonitoringTicks

/-! ## Association lists (JavaScript `Map` semantics) -/

/-- `Map.get`: first binding for the key, if any. -/
def lookupA {α : Type} (k : Nat) : List (Nat × α) → Option α
  | [] => none
  | (k', v) :: t => if k = k' then some v else lookupA k t

/-- `Map.set`: replace an existing binding or append a fresh one. -/
def setA {α : Type} (k : Nat) (v : α) : List (Nat × α) → List (Nat × α)
  | [] => [(k, v)]
  | (k', v') :: t => if k = k' then (k, v) :: t else (k', v') :: setA k v t

/-- `Map.delete`: drop every binding for the key. -/
def eraseA {α : Type} (k : Nat) : List (Nat × α) → List (Nat × α)
  | [] => []
  | (k', v) :: t => if k' = k then eraseA k t else (k', v) :: eraseA k t

/-- `Set.add`: insert if not already present. -/
def insertSet (k : Nat) (l : List Nat) : List Nat :=
  if k ∈ l then l else k :: l

/-- `Array.prototype.slice(-n)`: the last `n` elements (whole list if shorter). -/
def sliceLast {α : Type} (n : Nat) (l : List α) : List α :=
  l.drop (l.length - n)

/-- `Math.min(...prices)` over a non-empty list (the engine never calls it on
an empty history; `0` is the junk value for the unreachable empty case). -/
def listMin : List ℚ → ℚ
  | [] => 0
  | h :: t => t.foldl min h

/-- `Math.max(...prices)` over a non-empty list. -/
def listMax : List ℚ → ℚ
  | [] => 0
  | h :: t => t.foldl max h

theorem lookupA_setA {α : Type} (k k' : Nat) (v : α) (l : List (Nat × α)) :
    lookupA k (setA k' v l) = if k = k' then some v else lookupA k l := by
  induction l with
  | nil => by_cases h : k = k' <;> simp [setA, lookupA, h]
  | cons p t ih =>
    obtain ⟨a, b⟩ := p
    by_cases h1 : k' = a
    · subst h1
      by_cases h2 : k = k' <;> simp [setA, lookupA, h2]
    · by_cases h2 : k = a
      · subst h2
        have h3 : ¬ k = k' := fun hk => h1 hk.symm
        simp [setA, lookupA, h1, h3]
      · simp [setA, lookupA, h1, h2, ih]

theorem lookupA_setA_self {α : Type} (k : Nat) (v : α) (l : List (Nat × α)) :
    lookupA k (setA k v l) = some v := by
  rw [lookupA_setA]; simp

theorem lookupA_setA_ne {α : Type} {k k' : Nat} (v : α) (l : List (Nat × α))
    (h : k ≠ k') : lookupA k (setA k' v l) = lookupA k l := by
  rw [lookupA_setA]; simp [h]

theorem lookupA_eraseA_ne {α : Type} (k k' : Nat) (l : List (Nat × α))
    (h : k ≠ k') : lookupA k (eraseA k' l) = lookupA k l := by
  induction l with
  | nil => simp [eraseA, lookupA]
  | cons p t ih =>
    obtain ⟨a, b⟩ := p
    by_cases h1 : a = k'
    · subst h1
      simp [eraseA, lookupA, h, ih]
    · by_cases h2 : k = a <;> simp [eraseA, lookupA, h1, h2, ih]

theorem lookupA_eraseA_self {α : Type} (k : Nat) (l : List (Nat × α)) :
    lookupA k (eraseA k l) = none := by
  induction l with
  | nil => simp [eraseA, lookupA]
  | cons p t ih =>
    obtain ⟨a, b⟩ := p
    by_cases h1 : a = k
    · simp [eraseA, h1, ih]
    · have h2 : ¬ k = a := fun hk => h1 hk.symm
      simp [eraseA, lookupA, h1, h2, ih]

theorem lookupA_map_snd {α β : Type} (k : Nat) (f : α → β) (l : List (Nat × α)) :
    lookupA k (l.map (fun p => (p.1, f p.2))) = (lookupA k l).map f := by
  induction l with
  | nil => simp [lookupA]
  | cons p t ih =>
    obtain ⟨a, b⟩ := p
    by_cases h : k = a <;> simp [lookupA, h, ih]

/-! ## Inactivity alert engine (`useInactivityAlerts`)

The hook's mutable pieces (`configurations`, `alerts`, `inactiveSymbols`,
`symbolStates`, and the pool of pending `setTimeout` callbacks) are gathered
into one `EngineState`.  An armed timer is a record `⟨id, tok, firesAt⟩` in
`liveTimers`; `setTimeout` allocates the id `nextTimerId` and bumps the
counter, `clearTimeout id` removes the record, and a timer that actually
fires is removed at the moment it runs. -/

/-- `InactivityAlertConfig` from the hook. -/
structure InactivityAlertConfig where
  enabled : Bool
  deviation : ℚ
  duration : Nat          -- in seconds
  respectMarketHours : Bool
  deriving DecidableEq

/-- `InactivityAlert` from the hook (random `id` and display name dropped;
`priceRange` split into its two fields). -/
structure InactivityAlert where
  instrumentToken : Nat
  timestamp : Int
  duration : Nat
  deviation : ℚ
  baselinePrice : ℚ
  currentPrice : ℚ
  priceRangeMin : ℚ
  priceRangeMax : ℚ
  marketSession : String
  marketType : String
  deriving DecidableEq

/-- `SymbolState` from the hook.  The Web Audio `oscillator`/`gainNode`
pair is abstracted to the flag `soundOn` (`true` iff an oscillator is
currently stored, i.e. an alert sound is playing). -/
structure SymbolState where
  baselinePrice : ℚ
  timerId : Option Nat
  priceHistory : List (ℚ × Int)    -- (price, timestamp)
  lastMarketStatusCheck : Int
  wasMarketOpen : Bool
  soundOn : Bool
  deriving DecidableEq

/-- A pending `setTimeout` armed by `resetInactivityTimer`. -/
structure ArmedTimer where
  id : Nat
  tok : Nat
  firesAt : Int           -- arm time + duration * 1000
  deriving DecidableEq

/-- All mutable state owned by the `useInactivityAlerts` hook. -/
structure EngineState where
  configurations : List (Nat × InactivityAlertConfig)
  alerts : List InactivityAlert
  inactiveSymbols : List Nat
  symbolStates : List (Nat × SymbolState)
  liveTimers : List ArmedTimer
  nextTimerId : Nat
  deriving DecidableEq

/-- The hook's initial state: empty maps, no alerts, no timers. -/
def EngineState.empty : EngineState :=
  { configurations := [], alerts := [], inactiveSymbols := [],
    symbolStates := [], liveTimers := [], nextTimerId := 0 }

/-- `clearTimeout t`: drop the pending timer with id `t`, if any. -/
def cancelTimer (t : Nat) (e : EngineState) : EngineState :=
  { e with liveTimers := e.liveTimers.filter (fun p => p.id ≠ t) }

/-- `if (state.timerId) clearTimeout(state.timerId)`. -/
def cancelStateTimer (st : SymbolState) (e : EngineState) : EngineState :=
  match st.timerId with
  | some t => cancelTimer t e
  | none => e

/-- `stopAlertSound(token)`: stop and discard the stored oscillator (a no-op
when no state or no oscillator exists). -/
def stopAlertSound (tok : Nat) (e : EngineState) : EngineState :=
  { e with symbolStates :=
      match lookupA tok e.symbolStates with
      | some st => setA tok { st with soundOn := false } e.symbolStates
      | none => e.symbolStates }

/-- `setInactiveSymbols(prev => …delete(token)…)`. -/
def removeInactive (tok : Nat) (e : EngineState) : EngineState :=
  { e with inactiveSymbols := e.inactiveSymbols.filter (fun k => k ≠ tok) }

/-- `resetInactivityTimer(tick, config, state)`: cancel the state's pending
timer, reset the price history to just this tick, arm a fresh timer for
`config.duration * 1000` ms, and store its id on the state (written back to
the `symbolStates` map, which holds the same mutable object). -/
def resetInactivityTimer (tok : Nat) (price : ℚ) (now : Int)
    (cfg : InactivityAlertConfig) (st : SymbolState) (e : EngineState) :
    EngineState :=
  let e1 := cancelStateTimer st e
  let st' := { st with priceHistory := [(price, now)],
                       timerId := some e1.nextTimerId }
  { e1 with symbolStates := setA tok st' e1.symbolStates,
            liveTimers :=
              ⟨e1.nextTimerId, tok, now + (cfg.duration : Int) * 1000⟩
                :: e1.liveTimers,
            nextTimerId := e1.nextTimerId + 1 }

/-- `clearSymbolState(token)`: cancel the pending timer, stop the sound,
delete the state and remove the token from the inactive set. -/
def clearSymbolState (tok : Nat) (e : EngineState) : EngineState :=
  match lookupA tok e.symbolStates with
  | some st =>
      let e1 := cancelStateTimer st e
      { e1 with symbolStates := eraseA tok e1.symbolStates,
                inactiveSymbols := e1.inactiveSymbols.filter (fun k => k ≠ tok) }
  | none =>
      { e with inactiveSymbols := e.inactiveSymbols.filter (fun k => k ≠ tok) }

/-- `triggerAlert(tick, config, state)`: build the alert from the monitor's
current baseline, the captured tick's price and the min/max of the retained
price history; prepend it (capped at 100), mark the instrument inactive and
start the continuous alert sound. -/
def triggerAlert (tok : Nat) (capturedPrice : ℚ) (cfg : InactivityAlertConfig)
    (st : SymbolState) (fireTime : Int) (session marketType : String)
    (e : EngineState) : EngineState :=
  let prices := st.priceHistory.map Prod.fst
  let newAlert : InactivityAlert :=
    { instrumentToken := tok, timestamp := fireTime,
      duration := cfg.duration, deviation := cfg.deviation,
      baselinePrice := st.baselinePrice, currentPrice := capturedPrice,
      priceRangeMin := listMin prices, priceRangeMax := listMax prices,
      marketSession := session, marketType := marketType }
  let e1 := { e with alerts := (newAlert :: e.alerts).take 100,
                     inactiveSymbols := insertSet tok e.inactiveSymbols }
  -- playAlertSound: stop any existing sound, then store a fresh oscillator
  let e2 := stopAlertSound tok e1
  { e2 with symbolStates :=
      match lookupA tok e2.symbolStates with
      | some s => setA tok { s with soundOn := true } e2.symbolStates
      | none => e2.symbolStates }

/-- The `setTimeout` callback armed by `resetInactivityTimer`, run when the
pending timer `tid` fires: the timer leaves the pending pool, market-open
status is re-validated at fire time, and either `triggerAlert` runs (against
the monitor's current state) or the monitor is torn down with no alert. -/
def timerFire (tid tok : Nat) (capturedPrice : ℚ)
    (cfg : InactivityAlertConfig) (marketOpenAtFire : Bool) (fireTime : Int)
    (session marketType : String) (e : EngineState) : EngineState :=
  let e0 := { e with liveTimers := e.liveTimers.filter (fun p => p.id ≠ tid) }
  let shouldAlert := if cfg.respectMarketHours then marketOpenAtFire else true
  if shouldAlert then
    match lookupA tok e0.symbolStates with
    | some st => triggerAlert tok capturedPrice cfg st fireTime session marketType e0
    | none => e0       -- unreachable while the fired timer was still armed
  else
    clearSymbolState tok (stopAlertSound tok e0)

/-- The fall-through part of the `latestTicks.forEach` body after the
once-a-minute market-status recheck: the closed-market guard, the history
append/trim, and the movement test. -/
def processAfterStatusCheck (tok : Nat) (price : ℚ) (now : Int)
    (shouldAlert : Bool) (cfg : InactivityAlertConfig) (st : SymbolState)
    (e : EngineState) : EngineState :=
  if shouldAlert = false ∧ cfg.respectMarketHours = true then
    -- market closed while hours are respected: stop sound, cancel timer
    let e1 := cancelStateTimer st e
    let st' := { st with soundOn := false, timerId := none }
    { e1 with symbolStates := setA tok st' e1.symbolStates }
  else
    let hist1 := st.priceHistory ++ [(price, now)]
    let hist2 := sliceLast 100 (hist1.filter (fun h => now - 300000 < h.2))
    let st1 := { st with priceHistory := hist2 }
    if cfg.deviation < |price - st1.baselinePrice| then
      -- movement beyond the deviation: new baseline, restart the timer
      let st2 := { st1 with baselinePrice := price }
      let e1 := resetInactivityTimer tok price now cfg st2 e
      stopAlertSound tok (removeInactive tok e1)
    else
      { e with symbolStates := setA tok st1 e.symbolStates }

/-- The body of the `latestTicks.forEach` in the hook's main effect, run for
the latest tick of one instrument.  `marketOpen` is the value of
`shouldAlertsBeActive(instrumentName)` at this instant (wall clock and
session calendar live outside the engine). -/
def processLatestTick (tok : Nat) (price : ℚ) (now : Int) (marketOpen : Bool)
    (e : EngineState) : EngineState :=
  match lookupA tok e.configurations with
  | none => clearSymbolState tok e
  | some cfg =>
    if cfg.enabled = false then clearSymbolState tok e
    else
      let shouldAlert := if cfg.respectMarketHours then marketOpen else true
      match lookupA tok e.symbolStates with
      | none =>
          -- first tick under an enabled configuration: create fresh state
          let st : SymbolState :=
            { baselinePrice := price, timerId := none,
              priceHistory := [(price, now)], lastMarketStatusCheck := now,
              wasMarketOpen := shouldAlert, soundOn := false }
          let e1 := { e with symbolStates := setA tok st e.symbolStates }
          if shouldAlert then resetInactivityTimer tok price now cfg st e1
          else e1
      | some st0 =>
          if 60000 < now - st0.lastMarketStatusCheck then
            let st1 := { st0 with lastMarketStatusCheck := now }
            if st1.wasMarketOpen ≠ shouldAlert then
              let st2 := { st1 with wasMarketOpen := shouldAlert }
              if shouldAlert then
                -- market just opened: reset monitoring
                let st3 := { st2 with baselinePrice := price }
                let e1 := resetInactivityTimer tok price now cfg st3 e
                stopAlertSound tok (removeInactive tok e1)
              else
                -- market just closed: stop sound and clear the timer
                let e1 := cancelStateTimer st2 e
                let st3 := { st2 with soundOn := false, timerId := none }
                { e1 with symbolStates := setA tok st3 e1.symbolStates }
            else
              processAfterStatusCheck tok price now shouldAlert cfg st1 e
          else
            processAfterStatusCheck tok price now shouldAlert cfg st0 e

/-- `updateConfiguration(token, config)`: overwrite the configuration and
reset the symbol's state from scratch. -/
def updateConfiguration (tok : Nat) (cfg : InactivityAlertConfig)
    (e : EngineState) : EngineState :=
  clearSymbolState tok { e with configurations := setA tok cfg e.configurations }

/-- `clearAllAlerts()`: empty the alert log, stop every instrument's sound,
and empty the inactive-symbol set. -/
def clearAllAlerts (e : EngineState) : EngineState :=
  { e with alerts := [],
           symbolStates :=
             e.symbolStates.map (fun p => (p.1, { p.2 with soundOn := false })),
           inactiveSymbols := [] }

/-! ## The armed-timer invariant -/

/-- Every pending timer belongs to the current state of its instrument:
the `symbolStates` entry for its token stores exactly this timer's id. -/
def timerLinked (e : EngineState) : Prop :=
  ∀ p ∈ e.liveTimers,
    ∃ st, lookupA p.tok e.symbolStates = some st ∧ st.timerId = some p.id

/-- Pending timer ids were allocated by the counter. -/
def timerIdsBounded (e : EngineState) : Prop :=
  ∀ p ∈ e.liveTimers, p.id < e.nextTimerId

/-- The engine's timer invariant. -/
def Inv (e : EngineState) : Prop :=
  timerLinked e ∧ timerIdsBounded e ∧ (e.liveTimers.map ArmedTimer.id).Nodup

/-- At most one pending timer per instrument token. -/
def atMostOnePerToken (e : EngineState) : Prop :=
  ∀ tok : Nat, (e.liveTimers.filter (fun p => p.tok = tok)).length ≤ 1

theorem length_le_one_of_forall_eq {α : Type} {l : List α} {a : α}
    (hn : l.Nodup) (h : ∀ x ∈ l, x = a) : l.length ≤ 1 := by
  match l, hn, h with
  | [], _, _ => simp
  | [x], _, _ => simp
  | x :: y :: t, hn, h =>
    exfalso
    have hx := h x (by simp)
    have hy := h y (by simp)
    have hxy : x ∉ y :: t := (List.nodup_cons.mp hn).1
    exact hxy (by simp [hx, hy.symm])

theorem atMostOne_of_inv {e : EngineState} (h : Inv e) : atMostOnePerToken e := by
  obtain ⟨hlink, _, hnodup⟩ := h
  intro tok
  cases hF : e.liveTimers.filter (fun p => p.tok = tok) with
  | nil => simp
  | cons p0 rest =>
    have hp0 : p0 ∈ e.liveTimers.filter (fun p => p.tok = tok) := by
      rw [hF]; exact List.mem_cons_self _ _
    rw [List.mem_filter] at hp0
    obtain ⟨hp0mem, hp0tok⟩ := hp0
    have hp0tok' : p0.tok = tok := by simpa using hp0tok
    obtain ⟨st, hst, hid⟩ := hlink p0 hp0mem
    -- every filtered element carries the id stored in `tok`'s state
    have hall : ∀ x ∈ (e.liveTimers.filter (fun p => p.tok = tok)).map ArmedTimer.id,
        x = p0.id := by
      intro x hx
      rw [List.mem_map] at hx
      obtain ⟨q, hq, hqid⟩ := hx
      rw [List.mem_filter] at hq
      obtain ⟨hqmem, hqtok⟩ := hq
      have hqtok' : q.tok = tok := by simpa using hqtok
      obtain ⟨st', hst', hid'⟩ := hlink q hqmem
      rw [hqtok'] at hst'
      rw [hp0tok'] at hst
      rw [hst] at hst'
      have hss : st = st' := by injection hst'
      rw [← hss] at hid'
      rw [hid] at hid'
      have : p0.id = q.id := by injection hid'
      rw [← hqid, ← this]
    have hsub : List.Sublist
        ((e.liveTimers.filter (fun p => p.tok = tok)).map ArmedTimer.id)
        (e.liveTimers.map ArmedTimer.id) :=
      (List.filter_sublist _).map _
    have hnd := hnodup.sublist hsub
    have hlen := length_le_one_of_forall_eq hnd hall
    have hsame : ((e.liveTimers.filter (fun p => p.tok = tok)).map ArmedTimer.id).length
        = (p0 :: rest).length := by
      rw [hF]; simp
    omega

/-! ### Preservation of the invariant by every engine operation -/

theorem cancelStateTimer_fields (st : SymbolState) (e : EngineState) :
    (cancelStateTimer st e).symbolStates = e.symbolStates ∧
    (cancelStateTimer st e).nextTimerId = e.nextTimerId ∧
    List.Sublist (cancelStateTimer st e).liveTimers e.liveTimers := by
  cases h : st.timerId <;> simp [cancelStateTimer, cancelTimer, h, List.filter_sublist]

theorem mem_cancelStateTimer {st : SymbolState} {e : EngineState} {p : ArmedTimer}
    (hp : p ∈ (cancelStateTimer st e).liveTimers) :
    p ∈ e.liveTimers ∧ ∀ t, st.timerId = some t → p.id ≠ t := by
  cases h : st.timerId with
  | none =>
    simp only [cancelStateTimer, h] at hp
    exact ⟨hp, by simp [h]⟩
  | some t =>
    simp only [cancelStateTimer, h, cancelTimer, List.mem_filter] at hp
    refine ⟨hp.1, ?_⟩
    intro t' ht'
    have htt : t = t' := by injection ht'
    subst htt
    simpa using hp.2

/-- Template: an operation that keeps the timer pool and the counter, and
preserves every state's stored timer id, preserves the invariant. -/
theorem inv_of_update {e r : EngineState} (h : Inv e)
    (hlt : r.liveTimers = e.liveTimers) (hnt : r.nextTimerId = e.nextTimerId)
    (hst : ∀ k st, lookupA k e.symbolStates = some st →
      ∃ st', lookupA k r.symbolStates = some st' ∧ st'.timerId = st.timerId) :
    Inv r := by
  obtain ⟨hlink, hbound, hnodup⟩ := h
  refine ⟨?_, ?_, ?_⟩
  · intro p hp
    rw [hlt] at hp
    obtain ⟨st, hlook, hid⟩ := hlink p hp
    obtain ⟨st', hlook', hid'⟩ := hst _ _ hlook
    exact ⟨st', hlook', by rw [hid', hid]⟩
  · intro p hp
    rw [hlt] at hp
    rw [hnt]
    exact hbound p hp
  · rw [hlt]; exact hnodup

theorem inv_filterTimers {e : EngineState} (h : Inv e) (q : ArmedTimer → Bool) :
    Inv { e with liveTimers := e.liveTimers.filter q } := by
  obtain ⟨hlink, hbound, hnodup⟩ := h
  refine ⟨?_, ?_, ?_⟩
  · intro p hp
    simp only [List.mem_filter] at hp
    exact hlink p hp.1
  · intro p hp
    simp only [List.mem_filter] at hp
    exact hbound p hp.1
  · exact hnodup.sublist ((List.filter_sublist _).map _)

theorem inv_stopAlertSound {e : EngineState} (h : Inv e) (tok : Nat) :
    Inv (stopAlertSound tok e) := by
  refine inv_of_update h (by simp [stopAlertSound]) (by simp [stopAlertSound]) ?_
  intro k st hk
  cases hl : lookupA tok e.symbolStates with
  | none => exact ⟨st, by simp [stopAlertSound, hl, hk], rfl⟩
  | some s =>
    by_cases hkt : k = tok
    · subst hkt
      rw [hk] at hl
      have : st = s := by injection hl
      subst this
      exact ⟨{ st with soundOn := false }, by simp [stopAlertSound, hk, lookupA_setA], rfl⟩
    · exact ⟨st, by simp [stopAlertSound, hl, lookupA_setA, hkt, hk], rfl⟩

theorem inv_removeInactive {e : EngineState} (h : Inv e) (tok : Nat) :
    Inv (removeInactive tok e) := by
  refine inv_of_update h (by simp [removeInactive]) (by simp [removeInactive]) ?_
  intro k st hk
  exact ⟨st, by simp [removeInactive, hk], rfl⟩

theorem inv_insertFresh {e : EngineState} (h : Inv e) {tok : Nat}
    (hnone : lookupA tok e.symbolStates = none) (st : SymbolState) :
    Inv { e with symbolStates := setA tok st e.symbolStates } := by
  obtain ⟨hlink, hbound, hnodup⟩ := h
  refine ⟨?_, hbound, hnodup⟩
  intro p hp
  obtain ⟨stp, hlook, hid⟩ := hlink p hp
  by_cases hkt : p.tok = tok
  · rw [hkt, hnone] at hlook; cases hlook
  · exact ⟨stp, by simp [lookupA_setA, hkt, hlook], hid⟩

theorem inv_resetInactivityTimer {e : EngineState} (h : Inv e)
    {tok : Nat} {st : SymbolState} (price : ℚ) (now : Int)
    (cfg : InactivityAlertConfig)
    (hcov : ∀ p ∈ e.liveTimers, p.tok = tok → st.timerId = some p.id) :
    Inv (resetInactivityTimer tok price now cfg st e) := by
  obtain ⟨hlink, hbound, hnodup⟩ := h
  obtain ⟨hss, hnt, hsub⟩ := cancelStateTimer_fields st e
  refine ⟨?_, ?_, ?_⟩
  · intro p hp
    simp only [resetInactivityTimer] at hp ⊢
    rcases List.mem_cons.mp hp with hnew | hold
    · subst hnew
      refine ⟨{ st with priceHistory := [(price, now)],
                        timerId := some (cancelStateTimer st e).nextTimerId },
              ?_, rfl⟩
      simp [lookupA_setA]
    · obtain ⟨hmem, hcanc⟩ := mem_cancelStateTimer hold
      by_cases hkt : p.tok = tok
      · exfalso
        have hid := hcov p hmem hkt
        exact hcanc p.id hid rfl
      · obtain ⟨stp, hlook, hid⟩ := hlink p hmem
        rw [hss] at *
        exact ⟨stp, by simp [lookupA_setA, hkt]; rw [hss]; exact hlook, hid⟩
  · intro p hp
    simp only [resetInactivityTimer] at hp ⊢
    rcases List.mem_cons.mp hp with hnew | hold
    · subst hnew; simp
    · obtain ⟨hmem, _⟩ := mem_cancelStateTimer hold
      have := hbound p hmem
      rw [hnt]
      omega
  · simp only [resetInactivityTimer, List.map_cons]
    rw [List.nodup_cons]
    constructor
    · intro hmem
      rw [List.mem_map] at hmem
      obtain ⟨q, hq, hqid⟩ := hmem
      obtain ⟨hqmem, _⟩ := mem_cancelStateTimer hq
      have := hbound q hqmem
      rw [hnt] at hqid
      omega
    · exact hnodup.sublist (hsub.map _)

/-- Composite step shared by the two market-closed branches: cancel the
state's timer and write back a state whose stored timer id is `none`. -/
theorem inv_closeBranch {e : EngineState} (h : Inv e)
    {tok : Nat} {st0 st st' : SymbolState}
    (hlook0 : lookupA tok e.symbolStates = some st0)
    (hsame : st.timerId = st0.timerId) :
    Inv { cancelStateTimer st e with
            symbolStates := setA tok st' (cancelStateTimer st e).symbolStates } := by
  obtain ⟨hlink, hbound, hnodup⟩ := h
  obtain ⟨hss, hnt, hsub⟩ := cancelStateTimer_fields st e
  refine ⟨?_, ?_, ?_⟩
  · intro p hp
    simp only at hp
    obtain ⟨hmem, hcanc⟩ := mem_cancelStateTimer hp
    by_cases hkt : p.tok = tok
    · exfalso
      obtain ⟨stp, hlook, hid⟩ := hlink p hmem
      rw [hkt, hlook0] at hlook
      have heq : st0 = stp := by injection hlook
      subst heq
      exact hcanc p.id (hsame.trans hid) rfl
    · obtain ⟨stp, hlook, hid⟩ := hlink p hmem
      refine ⟨stp, ?_, hid⟩
      simp only [lookupA_setA, hkt, if_false]
      rw [hss]
      exact hlook
  · intro p hp
    simp only at hp
    obtain ⟨hmem, _⟩ := mem_cancelStateTimer hp
    have := hbound p hmem
    simpa [hnt] using this
  · exact hnodup.sublist (hsub.map _)

theorem inv_clearSymbolState {e : EngineState} (h : Inv e) (tok : Nat) :
    Inv (clearSymbolState tok e) := by
  obtain ⟨hlink, hbound, hnodup⟩ := h
  cases hl : lookupA tok e.symbolStates with
  | none =>
    simp only [clearSymbolState, hl]
    exact ⟨hlink, hbound, hnodup⟩
  | some st =>
    simp only [clearSymbolState, hl]
    obtain ⟨hss, hnt, hsub⟩ := cancelStateTimer_fields st e
    refine ⟨?_, ?_, ?_⟩
    · intro p hp
      simp only at hp
      obtain ⟨hmem, hcanc⟩ := mem_cancelStateTimer hp
      by_cases hkt : p.tok = tok
      · exfalso
        obtain ⟨stp, hlookp, hid⟩ := hlink p hmem
        rw [hkt, hl] at hlookp
        have heq : st = stp := by injection hlookp
        subst heq
        exact hcanc p.id hid rfl
      · obtain ⟨stp, hlookp, hid⟩ := hlink p hmem
        refine ⟨stp, ?_, hid⟩
        simp only [lookupA_eraseA_ne _ _ _ hkt]
        rw [hss]
        exact hlookp
    · intro p hp
      simp only at hp
      obtain ⟨hmem, _⟩ := mem_cancelStateTimer hp
      have := hbound p hmem
      simpa [hnt] using this
    · exact hnodup.sublist (hsub.map _)

theorem inv_triggerAlert {e : EngineState} (h : Inv e) (tok : Nat)
    (capturedPrice : ℚ) (cfg : InactivityAlertConfig) (st : SymbolState)
    (fireTime : Int) (session marketType : String) :
    Inv (triggerAlert tok capturedPrice cfg st fireTime session marketType e) := by
  refine inv_of_update h ?_ ?_ ?_
  · cases hl : lookupA tok e.symbolStates <;>
      simp [triggerAlert, stopAlertSound, hl, lookupA_setA]
  · cases hl : lookupA tok e.symbolStates <;>
      simp [triggerAlert, stopAlertSound, hl, lookupA_setA]
  · intro k st' hk
    cases hl : lookupA tok e.symbolStates with
    | none =>
      refine ⟨st', ?_, rfl⟩
      simp [triggerAlert, stopAlertSound, hl, hk]
    | some s =>
      by_cases hkt : k = tok
      · subst hkt
        rw [hk] at hl
        have hes : st' = s := by injection hl
        subst hes
        refine ⟨{ st' with soundOn := true }, ?_, rfl⟩
        simp [triggerAlert, stopAlertSound, hk, lookupA_setA]
      · refine ⟨st', ?_, rfl⟩
        simp [triggerAlert, stopAlertSound, hl, lookupA_setA, hkt, hk]

theorem inv_timerFire {e : EngineState} (h : Inv e) (tid tok : Nat)
    (capturedPrice : ℚ) (cfg : InactivityAlertConfig) (marketOpenAtFire : Bool)
    (fireTime : Int) (session marketType : String) :
    Inv (timerFire tid tok capturedPrice cfg marketOpenAtFire fireTime
          session marketType e) := by
  have h0 : Inv { e with liveTimers := e.liveTimers.filter (fun p => p.id ≠ tid) } :=
    inv_filterTimers h _
  simp only [timerFire]
  by_cases hsa : (if cfg.respectMarketHours then marketOpenAtFire else true) = true
  · rw [if_pos hsa]
    cases hl : lookupA tok
        ({ e with liveTimers := e.liveTimers.filter (fun p => p.id ≠ tid) }).symbolStates with
    | none => simpa [hl] using h0
    | some st => simpa [hl] using inv_triggerAlert h0 tok capturedPrice cfg st fireTime session marketType
  · rw [if_neg hsa]
    exact inv_clearSymbolState (inv_stopAlertSound h0 tok) tok

theorem lookupA_map_soundOff (k : Nat) (l : List (Nat × SymbolState)) :
    lookupA k (l.map (fun p => (p.1, { p.2 with soundOn := false }))) =
      (lookupA k l).map (fun s => { s with soundOn := false }) := by
  induction l with
  | nil => simp [lookupA]
  | cons p t ih =>
    obtain ⟨a, b⟩ := p
    by_cases h : k = a <;> simp [lookupA, h, ih]

theorem inv_processAfterStatusCheck {e : EngineState} (h : Inv e)
    {tok : Nat} {st0 st : SymbolState} (price : ℚ) (now : Int)
    (sa : Bool) (cfg : InactivityAlertConfig)
    (hlook0 : lookupA tok e.symbolStates = some st0)
    (hsame : st.timerId = st0.timerId) :
    Inv (processAfterStatusCheck tok price now sa cfg st e) := by
  by_cases hguard : sa = false ∧ cfg.respectMarketHours = true
  · simp only [processAfterStatusCheck, if_pos hguard]
    exact inv_closeBranch h hlook0 hsame
  · simp only [processAfterStatusCheck, if_neg hguard]
    by_cases hmove : cfg.deviation < |price - st.baselinePrice|
    · rw [if_pos hmove]
      refine inv_stopAlertSound (inv_removeInactive
        (inv_resetInactivityTimer h price now cfg ?_) tok) tok
      intro p hp hptok
      obtain ⟨stp, hlookp, hid⟩ := h.1 p hp
      rw [hptok, hlook0] at hlookp
      have heq : st0 = stp := by injection hlookp
      show st.timerId = some p.id
      rw [hsame, heq]
      exact hid
    · rw [if_neg hmove]
      refine inv_of_update h rfl rfl ?_
      intro k stk hk
      by_cases hkt : k = tok
      · subst hkt
        rw [hlook0] at hk
        have heq : st0 = stk := by injection hk
        refine ⟨_, lookupA_setA_self _ _ _, ?_⟩
        show st.timerId = stk.timerId
        rw [hsame, heq]
      · exact ⟨stk, by rw [lookupA_setA_ne _ _ hkt]; exact hk, rfl⟩

theorem inv_processLatestTick {e : EngineState} (h : Inv e) (tok : Nat)
    (price : ℚ) (now : Int) (marketOpen : Bool) :
    Inv (processLatestTick tok price now marketOpen e) := by
  cases hc : lookupA tok e.configurations with
  | none =>
    simp only [processLatestTick, hc]
    exact inv_clearSymbolState h tok
  | some cfg =>
    cases hen : cfg.enabled with
    | false =>
      simp [processLatestTick, hc, hen]
      exact inv_clearSymbolState h tok
    | true =>
      cases hs : lookupA tok e.symbolStates with
      | none =>
        cases hsa : (if cfg.respectMarketHours then marketOpen else true) with
        | true =>
          simp [processLatestTick, hc, hen, hs, hsa]
          refine inv_resetInactivityTimer (inv_insertFresh h hs _) price now cfg ?_
          intro p hp hptok
          exfalso
          obtain ⟨stp, hlookp, _⟩ := h.1 p hp
          rw [hptok, hs] at hlookp
          cases hlookp
        | false =>
          simp [processLatestTick, hc, hen, hs, hsa]
          exact inv_insertFresh h hs _
      | some st0 =>
        by_cases h60 : 60000 < now - st0.lastMarketStatusCheck
        · cases hsa : (if cfg.respectMarketHours then marketOpen else true) with
          | true =>
            cases hflip : st0.wasMarketOpen with
            | true =>
              simp [processLatestTick, hc, hen, hs, hsa, h60, hflip]
              exact inv_processAfterStatusCheck h price now _ cfg hs rfl
            | false =>
              simp [processLatestTick, hc, hen, hs, hsa, h60, hflip]
              refine inv_stopAlertSound (inv_removeInactive
                (inv_resetInactivityTimer h price now cfg ?_) tok) tok
              intro p hp hptok
              obtain ⟨stp, hlookp, hid⟩ := h.1 p hp
              rw [hptok, hs] at hlookp
              have heq : st0 = stp := by injection hlookp
              show st0.timerId = some p.id
              rw [heq]
              exact hid
          | false =>
            cases hflip : st0.wasMarketOpen with
            | false =>
              simp [processLatestTick, hc, hen, hs, hsa, h60, hflip]
              exact inv_processAfterStatusCheck h price now _ cfg hs rfl
            | true =>
              simp [processLatestTick, hc, hen, hs, hsa, h60, hflip]
              exact inv_closeBranch h hs rfl
        · simp [processLatestTick, hc, hen, hs, h60]
          exact inv_processAfterStatusCheck h price now _ cfg hs rfl

theorem inv_updateConfiguration {e : EngineState} (h : Inv e) (tok : Nat)
    (cfg : InactivityAlertConfig) : Inv (updateConfiguration tok cfg e) := by
  have h1 : Inv { e with configurations := setA tok cfg e.configurations } := h
  exact inv_clearSymbolState h1 tok

theorem inv_clearAllAlerts {e : EngineState} (h : Inv e) :
    Inv (clearAllAlerts e) := by
  refine inv_of_update h rfl rfl ?_
  intro k st hk
  refine ⟨{ st with soundOn := false }, ?_, rfl⟩
  simp only [clearAllAlerts]
  rw [lookupA_map_soundOff, hk]
  rfl

/-! ## Claim C1 -/

/-- C1: for every instrument, at most one armed inactivity timer exists at
any instant: processing a tick (including one that moves the price beyond
the deviation threshold and the market-close transition), a configuration
update, and a timer firing each cancel any existing timer before optionally
arming a new one, so the timer invariant — and with it the at-most-one-armed-
timer property — is preserved by every engine operation. -/
theorem claim_C1_at_most_one_armed_timer
    (e : EngineState) (h : Inv e)
    (tok tok2 tid : Nat) (price capturedPrice : ℚ) (now fireTime : Int)
    (marketOpen marketOpenAtFire : Bool)
    (cfg cfg2 : InactivityAlertConfig) (session marketType : String) :
    atMostOnePerToken e ∧
    (Inv (processLatestTick tok price now marketOpen e) ∧
     atMostOnePerToken (processLatestTick tok price now marketOpen e)) ∧
    (Inv (updateConfiguration tok cfg e) ∧
     atMostOnePerToken (updateConfiguration tok cfg e)) ∧
    (Inv (timerFire tid tok2 capturedPrice cfg2 marketOpenAtFire fireTime
            session marketType e) ∧
     atMostOnePerToken (timerFire tid tok2 capturedPrice cfg2 marketOpenAtFire
            fireTime session marketType e)) := by
  have h1 := inv_processLatestTick h tok price now marketOpen
  have h2 := inv_updateConfiguration h tok cfg
  have h3 := inv_timerFire h tid tok2 capturedPrice cfg2 marketOpenAtFire
    fireTime session marketType
  exact ⟨atMostOne_of_inv h, ⟨h1, atMostOne_of_inv h1⟩,
         ⟨h2, atMostOne_of_inv h2⟩, ⟨h3, atMostOne_of_inv h3⟩⟩

/-- Witness for C1 at the engine's initial state. -/
theorem claim_C1_at_most_one_armed_timer_witness :
    Inv EngineState.empty ∧
    (atMostOnePerToken EngineState.empty ∧
     (Inv (processLatestTick 1 5 100 true EngineState.empty) ∧
      atMostOnePerToken (processLatestTick 1 5 100 true EngineState.empty)) ∧
     (Inv (updateConfiguration 1 ⟨true, 1/10, 30, true⟩ EngineState.empty) ∧
      atMostOnePerToken (updateConfiguration 1 ⟨true, 1/10, 30, true⟩ EngineState.empty)) ∧
     (Inv (timerFire 0 1 5 ⟨true, 1/10, 30, true⟩ true 200 "Open" "equity"
             EngineState.empty) ∧
      atMostOnePerToken (timerFire 0 1 5 ⟨true, 1/10, 30, true⟩ true 200 "Open" "equity"
             EngineState.empty))) := by
  have hinv : Inv EngineState.empty := by
    refine ⟨?_, ?_, ?_⟩ <;> simp [timerLinked, timerIdsBounded, EngineState.empty]
  exact ⟨hinv, claim_C1_at_most_one_armed_timer EngineState.empty hinv
    1 1 0 5 5 100 200 true true ⟨true, 1/10, 30, true⟩ ⟨true, 1/10, 30, true⟩
    "Open" "equity"⟩

/-! ## Claim C2 -/

/-- C2: while a monitor's duration timer is armed, a tick whose price
differs from the baseline by more than the configured deviation cancels that
timer (so no alert can fire for that episode and the alert log is
untouched), updates the baseline to the new price, and restarts a fresh
duration timer from that moment. -/
theorem claim_C2_movement_cancels_episode
    (e : EngineState) (h : Inv e) (tok t : Nat) (d : Int)
    (price : ℚ) (now : Int) (marketOpen : Bool)
    (cfg : InactivityAlertConfig) (st : SymbolState)
    (hc : lookupA tok e.configurations = some cfg)
    (hen : cfg.enabled = true)
    (hs : lookupA tok e.symbolStates = some st)
    (hsa : (if cfg.respectMarketHours then marketOpen else true) = true)
    (h60 : ¬ 60000 < now - st.lastMarketStatusCheck)
    (htimer : st.timerId = some t)
    (hlive : (⟨t, tok, d⟩ : ArmedTimer) ∈ e.liveTimers)
    (hmove : cfg.deviation < |price - st.baselinePrice|) :
    (∀ p ∈ (processLatestTick tok price now marketOpen e).liveTimers, p.id ≠ t) ∧
    (processLatestTick tok price now marketOpen e).alerts = e.alerts ∧
    (∃ st', lookupA tok (processLatestTick tok price now marketOpen e).symbolStates
        = some st' ∧
      st'.baselinePrice = price ∧
      st'.timerId = some e.nextTimerId ∧
      st'.priceHistory = [(price, now)]) ∧
    (⟨e.nextTimerId, tok, now + (cfg.duration : Int) * 1000⟩ : ArmedTimer)
      ∈ (processLatestTick tok price now marketOpen e).liveTimers := by
  have htlt : t < e.nextTimerId := h.2.1 _ hlive
  have hred : processLatestTick tok price now marketOpen e =
      stopAlertSound tok (removeInactive tok
        (resetInactivityTimer tok price now cfg
          { st with
              priceHistory := sliceLast 100
                ((st.priceHistory ++ [(price, now)]).filter
                  (fun h => now - 300000 < h.2)),
              baselinePrice := price } e)) := by
    simp only [processLatestTick, hc, hen, hs]
    rw [if_neg (by simp [hen])]
    rw [if_neg h60]
    simp only [processAfterStatusCheck]
    rw [if_neg (by simp [hsa])]
    rw [if_pos hmove]
  rw [hred]
  simp only [resetInactivityTimer, cancelStateTimer, htimer, cancelTimer,
    stopAlertSound, removeInactive]
  refine ⟨?_, ?_, ?_, ?_⟩
  · intro p hp
    rcases List.mem_cons.mp hp with hnew | hold
    · subst hnew
      simp
      omega
    · rw [List.mem_filter] at hold
      simpa using hold.2
  · simp [lookupA_setA_self]
  · rw [lookupA_setA_self]
    simp only [lookupA_setA_self]
    exact ⟨_, rfl, rfl, rfl, rfl⟩
  · simp

/-- A sample engine for the C2 witness: instrument 1 monitored with
deviation 1/10 and duration 30 s, baseline 100, timer 0 armed. -/
def engC2 : EngineState :=
  { configurations := [(1, ⟨true, 1/10, 30, true⟩)], alerts := [],
    inactiveSymbols := [],
    symbolStates := [(1, ⟨100, some 0, [(100, 0)], 0, true, false⟩)],
    liveTimers := [⟨0, 1, 30000⟩], nextTimerId := 1 }

/-- Witness for C2: a tick at price 101 (movement beyond the deviation)
cancels timer 0, leaves the alert log empty, moves the baseline to 101 and
arms the fresh timer 1 firing 30 s later. -/
theorem claim_C2_movement_cancels_episode_witness :
    Inv engC2 ∧
    ((∀ p ∈ (processLatestTick 1 101 1000 true engC2).liveTimers, p.id ≠ 0) ∧
     (processLatestTick 1 101 1000 true engC2).alerts = engC2.alerts ∧
     (∃ st', lookupA 1 (processLatestTick 1 101 1000 true engC2).symbolStates
         = some st' ∧
       st'.baselinePrice = 101 ∧
       st'.timerId = some engC2.nextTimerId ∧
       st'.priceHistory = [(101, 1000)]) ∧
     (⟨engC2.nextTimerId, 1, 1000 + ((30 : Nat) : Int) * 1000⟩ : ArmedTimer)
       ∈ (processLatestTick 1 101 1000 true engC2).liveTimers) := by
  have hinv : Inv engC2 := by
    refine ⟨?_, ?_, ?_⟩ <;> simp [timerLinked, timerIdsBounded, lookupA, engC2]
  refine ⟨hinv, ?_⟩
  exact claim_C2_movement_cancels_episode engC2 hinv 1 0 30000 101 1000 true
    ⟨true, 1/10, 30, true⟩ ⟨100, some 0, [(100, 0)], 0, true, false⟩
    (by simp [engC2, lookupA]) rfl (by simp [engC2, lookupA]) rfl (by decide) rfl
    (by simp [engC2]) (by norm_num)

/-! ## Claim C3 -/

theorem mem_insertSet_self (k : Nat) (l : List Nat) : k ∈ insertSet k l := by
  by_cases h : k ∈ l <;> simp [insertSet, h]

theorem notMem_filter_ne_self (tok : Nat) (l : List Nat) :
    tok ∉ l.filter (fun k => k ≠ tok) := by
  intro h
  rw [List.mem_filter] at h
  simpa using h.2

/-- C3: when an armed inactivity timer fires, market-open status is
re-validated at fire time.  If the market is still open (or market hours are
not respected), an alert is emitted whose fields are the monitor's current
baseline price, the price of the tick captured at arm time, and the min/max
of the retained price history, and the instrument is marked inactive.  If
the market closed during the wait, the monitor is destroyed with no alert
and the inactive flag is cleared. -/
theorem claim_C3_timer_fire_alert_or_teardown
    (e : EngineState) (tid tok : Nat) (capturedPrice : ℚ)
    (cfg : InactivityAlertConfig) (marketOpenAtFire : Bool) (fireTime : Int)
    (session marketType : String) (st : SymbolState)
    (hs : lookupA tok e.symbolStates = some st) :
    ((if cfg.respectMarketHours then marketOpenAtFire else true) = true →
      (timerFire tid tok capturedPrice cfg marketOpenAtFire fireTime
          session marketType e).alerts =
        ({ instrumentToken := tok, timestamp := fireTime,
           duration := cfg.duration, deviation := cfg.deviation,
           baselinePrice := st.baselinePrice, currentPrice := capturedPrice,
           priceRangeMin := listMin (st.priceHistory.map Prod.fst),
           priceRangeMax := listMax (st.priceHistory.map Prod.fst),
           marketSession := session, marketType := marketType }
          :: e.alerts).take 100 ∧
      tok ∈ (timerFire tid tok capturedPrice cfg marketOpenAtFire fireTime
          session marketType e).inactiveSymbols) ∧
    ((if cfg.respectMarketHours then marketOpenAtFire else true) = false →
      (timerFire tid tok capturedPrice cfg marketOpenAtFire fireTime
          session marketType e).alerts = e.alerts ∧
      lookupA tok (timerFire tid tok capturedPrice cfg marketOpenAtFire fireTime
          session marketType e).symbolStates = none ∧
      tok ∉ (timerFire tid tok capturedPrice cfg marketOpenAtFire fireTime
          session marketType e).inactiveSymbols) := by
  constructor
  · intro hsa
    simp only [timerFire, hsa, if_true]
    have hs0 : lookupA tok
        ({ e with liveTimers := e.liveTimers.filter (fun p => p.id ≠ tid) }).symbolStates
        = some st := hs
    simp only [hs0]
    simp only [triggerAlert, stopAlertSound]
    exact ⟨trivial, mem_insertSet_self tok e.inactiveSymbols⟩
  · intro hsa
    simp only [timerFire, hsa, Bool.false_eq_true, if_false]
    simp only [stopAlertSound, clearSymbolState]
    have hs0 : lookupA tok
        ({ e with liveTimers := e.liveTimers.filter (fun p => p.id ≠ tid) }).symbolStates
        = some st := hs
    simp only [hs0, lookupA_setA_self]
    cases hts : st.timerId with
    | none =>
      simp only [cancelStateTimer, hts]
      exact ⟨trivial, lookupA_eraseA_self _ _, notMem_filter_ne_self _ _⟩
    | some t =>
      simp only [cancelStateTimer, hts, cancelTimer]
      exact ⟨trivial, lookupA_eraseA_self _ _, notMem_filter_ne_self _ _⟩

/-- A sample engine for the C3 witness: instrument 1 has an armed timer 0,
baseline 100, history [99, 101]. -/
def engC3 : EngineState :=
  { configurations := [(1, ⟨true, 1/10, 30, true⟩)], alerts := [],
    inactiveSymbols := [],
    symbolStates := [(1, ⟨100, some 0, [(99, 0), (101, 500)], 0, true, false⟩)],
    liveTimers := [⟨0, 1, 30000⟩], nextTimerId := 1 }

/-- Witness for C3: timer 0 fires with the market still open, emitting an
alert with baseline 100, captured price 100 and range [99, 101]. -/
theorem claim_C3_timer_fire_alert_or_teardown_witness :
    lookupA 1 engC3.symbolStates
      = some ⟨100, some 0, [(99, 0), (101, 500)], 0, true, false⟩ ∧
    (((if (true : Bool) then (true : Bool) else true) = true →
      (timerFire 0 1 100 ⟨true, 1/10, 30, true⟩ true 30000 "Open" "equity"
          engC3).alerts =
        ({ instrumentToken := 1, timestamp := 30000, duration := 30,
           deviation := 1/10, baselinePrice := 100, currentPrice := 100,
           priceRangeMin := listMin ([(99, 0), ((101 : ℚ), (500 : Int))].map Prod.fst),
           priceRangeMax := listMax ([(99, 0), ((101 : ℚ), (500 : Int))].map Prod.fst),
           marketSession := "Open", marketType := "equity" }
          :: engC3.alerts).take 100 ∧
      1 ∈ (timerFire 0 1 100 ⟨true, 1/10, 30, true⟩ true 30000 "Open" "equity"
          engC3).inactiveSymbols) ∧
    ((if (true : Bool) then (true : Bool) else true) = false →
      (timerFire 0 1 100 ⟨true, 1/10, 30, true⟩ true 30000 "Open" "equity"
          engC3).alerts = engC3.alerts ∧
      lookupA 1 (timerFire 0 1 100 ⟨true, 1/10, 30, true⟩ true 30000 "Open" "equity"
          engC3).symbolStates = none ∧
      1 ∉ (timerFire 0 1 100 ⟨true, 1/10, 30, true⟩ true 30000 "Open" "equity"
          engC3).inactiveSymbols)) := by
  refine ⟨by simp [engC3, lookupA], ?_⟩
  exact claim_C3_timer_fire_alert_or_teardown engC3 0 1 100
    ⟨true, 1/10, 30, true⟩ true 30000 "Open" "equity"
    ⟨100, some 0, [(99, 0), (101, 500)], 0, true, false⟩
    (by simp [engC3, lookupA])

/-! ## Claim C4 -/

/-- C4: a configuration update destroys the monitor state for the
instrument (no armed timer for it survives, its state entry is gone, the
new configuration is stored), and the state recreated by the next tick has
that tick's price as its baseline. -/
theorem claim_C4_config_update_resets
    (e : EngineState) (h : Inv e) (tok : Nat) (cfg : InactivityAlertConfig)
    (price : ℚ) (now : Int) (marketOpen : Bool) :
    lookupA tok (updateConfiguration tok cfg e).symbolStates = none ∧
    (∀ p ∈ (updateConfiguration tok cfg e).liveTimers, p.tok ≠ tok) ∧
    lookupA tok (updateConfiguration tok cfg e).configurations = some cfg ∧
    (cfg.enabled = true →
      ∃ st', lookupA tok (processLatestTick tok price now marketOpen
          (updateConfiguration tok cfg e)).symbolStates = some st' ∧
        st'.baselinePrice = price) := by
  obtain ⟨hlink, hbound, hnodup⟩ := h
  have hstates : lookupA tok (updateConfiguration tok cfg e).symbolStates = none := by
    simp only [updateConfiguration, clearSymbolState]
    cases hl : lookupA tok e.symbolStates with
    | none => simpa using hl
    | some st =>
      obtain ⟨hss, _, _⟩ := cancelStateTimer_fields st
        { e with configurations := setA tok cfg e.configurations }
      simp only []
      rw [show (cancelStateTimer st
        { e with configurations := setA tok cfg e.configurations }).symbolStates
          = e.symbolStates from hss]
      exact lookupA_eraseA_self tok e.symbolStates
  have htimers : ∀ p ∈ (updateConfiguration tok cfg e).liveTimers, p.tok ≠ tok := by
    intro p hp hptok
    simp only [updateConfiguration, clearSymbolState] at hp
    cases hl : lookupA tok e.symbolStates with
    | none =>
      rw [hl] at hp
      obtain ⟨stp, hlookp, _⟩ := hlink p hp
      rw [hptok, hl] at hlookp
      cases hlookp
    | some st =>
      rw [hl] at hp
      obtain ⟨hmem, hcanc⟩ := mem_cancelStateTimer hp
      obtain ⟨stp, hlookp, hid⟩ := hlink p hmem
      rw [hptok, hl] at hlookp
      have heq : st = stp := by injection hlookp
      exact hcanc p.id (heq ▸ hid) rfl
  have hconf : lookupA tok (updateConfiguration tok cfg e).configurations = some cfg := by
    simp only [updateConfiguration, clearSymbolState]
    cases hl : lookupA tok e.symbolStates with
    | none => simp [lookupA_setA_self]
    | some st =>
      obtain ⟨_, _, _⟩ := cancelStateTimer_fields st
        { e with configurations := setA tok cfg e.configurations }
      cases hts : st.timerId <;>
        simp [cancelStateTimer, hts, cancelTimer, lookupA_setA_self]
  refine ⟨hstates, htimers, hconf, ?_⟩
  intro hen
  set e1 := updateConfiguration tok cfg e with he1
  cases hsa : (if cfg.respectMarketHours then marketOpen else true) with
  | true =>
    simp only [processLatestTick, hconf, hen, hstates, hsa]
    rw [if_neg (by simp)]
    simp only [resetInactivityTimer, cancelStateTimer]
    refine ⟨{ baselinePrice := price, timerId := some e1.nextTimerId,
              priceHistory := [(price, now)], lastMarketStatusCheck := now,
              wasMarketOpen := true, soundOn := false }, ?_, rfl⟩
    simp [lookupA_setA_self]
  | false =>
    simp only [processLatestTick, hconf, hen, hstates, hsa]
    rw [if_neg (by simp)]
    rw [if_neg (by simp)]
    exact ⟨_, lookupA_setA_self _ _ _, rfl⟩

/-- Witness for C4 on a running engine: reconfiguring instrument 1 removes
its state and timer, stores the new configuration, and the next tick at
price 250 recreates a monitor whose baseline is 250. -/
theorem claim_C4_config_update_resets_witness :
    Inv engC3 ∧
    (lookupA 1 (updateConfiguration 1 ⟨true, 2, 60, false⟩ engC3).symbolStates = none ∧
     (∀ p ∈ (updateConfiguration 1 ⟨true, 2, 60, false⟩ engC3).liveTimers, p.tok ≠ 1) ∧
     lookupA 1 (updateConfiguration 1 ⟨true, 2, 60, false⟩ engC3).configurations
       = some ⟨true, 2, 60, false⟩ ∧
     ((true : Bool) = true →
       ∃ st', lookupA 1 (processLatestTick 1 250 5000 false
           (updateConfiguration 1 ⟨true, 2, 60, false⟩ engC3)).symbolStates = some st' ∧
         st'.baselinePrice = 250)) := by
  have hinv : Inv engC3 := by
    refine ⟨?_, ?_, ?_⟩ <;> simp [timerLinked, timerIdsBounded, lookupA, engC3]
  exact ⟨hinv, claim_C4_config_update_resets engC3 hinv 1 ⟨true, 2, 60, false⟩
    250 5000 false⟩

/-! ## Claim C10 -/

/-- C10: clearing all alerts empties the alert log, empties the entire
inactive-instrument set and stops every playing alert sound, while leaving
the configuration map, the pending timers and every monitor's baseline
price, price history and stored timer id unchanged — armed monitors keep
running. -/
theorem claim_C10_clear_all_alerts_frame (e : EngineState) :
    (clearAllAlerts e).alerts = [] ∧
    (clearAllAlerts e).inactiveSymbols = [] ∧
    (clearAllAlerts e).configurations = e.configurations ∧
    (clearAllAlerts e).liveTimers = e.liveTimers ∧
    (clearAllAlerts e).nextTimerId = e.nextTimerId ∧
    ∀ tok, lookupA tok (clearAllAlerts e).symbolStates =
      (lookupA tok e.symbolStates).map (fun st => { st with soundOn := false }) := by
  refine ⟨rfl, rfl, rfl, rfl, rfl, ?_⟩
  intro tok
  simp only [clearAllAlerts]
  exact lookupA_map_soundOff tok e.symbolStates

/-! ## Session oracle (`market-timings.ts`)

`getCurrentMarketStatus` first converts `now` to IST and extracts the
day-of-week (0 = Sunday … 6 = Saturday), the `YYYY-MM-DD` date string and
the time of day in minutes; the embedding takes those three extracted
values as inputs.  `"HH:MM"` session bounds are embedded already passed
through `timeToMinutes`. -/

inductive MarketType
  | equity | currency | commodity | gsec | bonds
  deriving DecidableEq

/-- `MarketSession` (the `"HH:MM"` fields `start`/`end` are kept in
minutes-since-midnight form; `stop` stands for the source's `end`). -/
structure MarketSession where
  name : String
  start : Nat
  stop : Nat
  deriving DecidableEq

structure MarketTimings where
  preMarket : Option MarketSession
  normal : MarketSession
  postMarket : Option MarketSession
  deriving DecidableEq

def timeToMinutes (hours minutes : Nat) : Nat :=
  hours * 60 + minutes

/-- `MARKET_TIMINGS` from the source. -/
def MARKET_TIMINGS : MarketType → MarketTimings
  | .equity =>
    { preMarket := some ⟨"Pre-market", timeToMinutes 9 0, timeToMinutes 9 15⟩,
      normal := ⟨"Normal", timeToMinutes 9 15, timeToMinutes 15 30⟩,
      postMarket := some ⟨"Post-market", timeToMinutes 15 30, timeToMinutes 16 0⟩ }
  | .currency =>
    { preMarket := none,
      normal := ⟨"Normal", timeToMinutes 9 0, timeToMinutes 17 0⟩,
      postMarket := none }
  | .commodity =>
    { preMarket := none,
      normal := ⟨"Normal", timeToMinutes 9 0, timeToMinutes 23 30⟩,
      postMarket := none }
  | .gsec =>
    { preMarket := none,
      normal := ⟨"Normal", timeToMinutes 9 0, timeToMinutes 17 0⟩,
      postMarket := none }
  | .bonds =>
    { preMarket := none,
      normal := ⟨"Normal", timeToMinutes 9 0, timeToMinutes 17 0⟩,
      postMarket := none }

/-- `MARKET_HOLIDAYS_2024` from the source. -/
def MARKET_HOLIDAYS_2024 : List String :=
  ["2024-01-26", "2024-03-08", "2024-03-29", "2024-04-11", "2024-04-17",
   "2024-05-01", "2024-06-17", "2024-08-15", "2024-08-26", "2024-10-02",
   "2024-10-31", "2024-11-01", "2024-11-15"]

def isTimeInRange (current start stop : Nat) : Bool :=
  if stop < start then
    decide (current ≥ start) || decide (current ≤ stop)
  else
    decide (start ≤ current) && decide (current ≤ stop)

def getNextEquitySession (currentTime : Nat) : String :=
  if currentTime < timeToMinutes 9 0 then "09:00 (Pre-market)"
  else if currentTime < timeToMinutes 9 15 then "09:15 (Normal trading)"
  else if currentTime < timeToMinutes 15 30 then "15:30 (Post-market)"
  else "Next day 09:00 (Pre-market)"

def getNextOpenTime (marketType : MarketType) : String :=
  match marketType with
  | .equity => "Next trading day 09:00"
  | .currency | .gsec | .bonds => "Next trading day 09:00"
  | .commodity => "Next trading day 09:00"

/-- The source's status objects carry `isOpen`, `session`, `reason` and
either `sessionEnd` (open) or `nextOpenTime` (closed); the two optional
fields are both present here as `Option`s. -/
structure MarketStatus where
  isOpen : Bool
  session : String
  reason : String
  sessionEnd : Option Nat
  nextOpenTime : Option String
  deriving DecidableEq

/-- `timings.preMarket && isTimeInRange(currentTime, …)` for an optional
session. -/
def inOptSession (currentTime : Nat) : Option MarketSession → Bool
  | some s => isTimeInRange currentTime s.start s.stop
  | none => false

/-- `getCurrentMarketStatus(marketType)` with the IST-derived components of
`now` passed explicitly. -/
def getCurrentMarketStatus (marketType : MarketType) (dayOfWeek : Nat)
    (currentDate : String) (currentTime : Nat) : MarketStatus :=
  if dayOfWeek = 0 ∨ dayOfWeek = 6 then
    { isOpen := false, session := "Closed", reason := "Weekend",
      sessionEnd := none, nextOpenTime := some (getNextOpenTime marketType) }
  else if currentDate ∈ MARKET_HOLIDAYS_2024 then
    { isOpen := false, session := "Closed", reason := "Market Holiday",
      sessionEnd := none, nextOpenTime := some (getNextOpenTime marketType) }
  else
    let timings := MARKET_TIMINGS marketType
    if marketType = MarketType.equity then
      if inOptSession currentTime timings.preMarket then
        { isOpen := true, session := "Pre-market", reason := "Pre-market session",
          sessionEnd := (timings.preMarket.map MarketSession.stop),
          nextOpenTime := none }
      else if isTimeInRange currentTime timings.normal.start timings.normal.stop then
        { isOpen := true, session := "Open", reason := "Normal trading session",
          sessionEnd := some timings.normal.stop, nextOpenTime := none }
      else if inOptSession currentTime timings.postMarket then
        { isOpen := true, session := "Post-market", reason := "Post-market session",
          sessionEnd := (timings.postMarket.map MarketSession.stop),
          nextOpenTime := none }
      else
        { isOpen := false, session := "Closed", reason := "Outside trading hours",
          sessionEnd := none, nextOpenTime := some (getNextEquitySession currentTime) }
    else
      if isTimeInRange currentTime timings.normal.start timings.normal.stop then
        { isOpen := true, session := "Open", reason := "Normal trading session",
          sessionEnd := some timings.normal.stop, nextOpenTime := none }
      else
        { isOpen := false, session := "Closed", reason := "Outside trading hours",
          sessionEnd := none, nextOpenTime := some (getNextOpenTime marketType) }

/-! ## Claim C8 -/

/-- C8 (counterexample): on the 2024-08-15 market holiday (a Thursday,
`dayOfWeek = 4`) the session oracle returns closed with reason
`"Market Holiday"`, not `"Holiday"` as the claim states. -/
theorem claim_C8_holiday_reason_counterexample :
    "2024-08-15" ∈ MARKET_HOLIDAYS_2024 ∧
    ¬((4 : Nat) = 0 ∨ (4 : Nat) = 6) ∧
    (getCurrentMarketStatus MarketType.equity 4 "2024-08-15" 600).isOpen = false ∧
    (getCurrentMarketStatus MarketType.equity 4 "2024-08-15" 600).reason
      = "Market Holiday" ∧
    (getCurrentMarketStatus MarketType.equity 4 "2024-08-15" 600).reason
      ≠ "Holiday" := by
  refine ⟨by decide, by decide, ?_, ?_, ?_⟩ <;>
    simp [getCurrentMarketStatus, MARKET_HOLIDAYS_2024]

/-- C8 (amended): for every market type and IST instant, the oracle returns
closed with reason `"Weekend"` on a Saturday or Sunday; on a non-weekend
day whose date is in the static holiday set it returns closed with reason
`"Market Holiday"` (the weekend check runs first, and the reason string is
`"Market Holiday"`, not `"Holiday"`). -/
theorem claim_C8_weekend_and_holiday_closed
    (marketType : MarketType) (dayOfWeek : Nat) (currentDate : String)
    (currentTime : Nat) :
    ((dayOfWeek = 0 ∨ dayOfWeek = 6) →
      getCurrentMarketStatus marketType dayOfWeek currentDate currentTime =
        { isOpen := false, session := "Closed", reason := "Weekend",
          sessionEnd := none,
          nextOpenTime := some (getNextOpenTime marketType) }) ∧
    (¬(dayOfWeek = 0 ∨ dayOfWeek = 6) → currentDate ∈ MARKET_HOLIDAYS_2024 →
      getCurrentMarketStatus marketType dayOfWeek currentDate currentTime =
        { isOpen := false, session := "Closed", reason := "Market Holiday",
          sessionEnd := none,
          nextOpenTime := some (getNextOpenTime marketType) }) := by
  constructor
  · intro hw
    simp [getCurrentMarketStatus, hw]
  · intro hw hh
    simp [getCurrentMarketStatus, hw, hh]

/-- Witness for C8 (amended): Saturday 2024-08-17 is closed as a weekend;
Thursday 2024-08-15 is closed as a market holiday. -/
theorem claim_C8_weekend_and_holiday_closed_witness :
    ((6 : Nat) = 0 ∨ (6 : Nat) = 6) ∧
    getCurrentMarketStatus MarketType.commodity 6 "2024-08-17" 600 =
      { isOpen := false, session := "Closed", reason := "Weekend",
        sessionEnd := none,
        nextOpenTime := some (getNextOpenTime MarketType.commodity) } ∧
    ¬((4 : Nat) = 0 ∨ (4 : Nat) = 6) ∧
    "2024-08-15" ∈ MARKET_HOLIDAYS_2024 ∧
    getCurrentMarketStatus MarketType.equity 4 "2024-08-15" 600 =
      { isOpen := false, session := "Closed", reason := "Market Holiday",
        sessionEnd := none,
        nextOpenTime := some (getNextOpenTime MarketType.equity) } := by
  refine ⟨Or.inr rfl, ?_, by decide, by decide, ?_⟩
  · exact (claim_C8_weekend_and_holiday_closed MarketType.commodity 6
      "2024-08-17" 600).1 (Or.inr rfl)
  · exact (claim_C8_weekend_and_holiday_closed MarketType.equity 4
      "2024-08-15" 600).2 (by decide) (by decide)

/-! ## Feed connector, primary feed (`useTickData`)

`processTickData` receives the raw SSE payload; JSON parsing is modelled by
the `Option (List (Option RawTick))` input: `none` is a batch that fails
`JSON.parse` (the `catch` records a `"data"` alert), a `none` entry is an
array element that is not an object (or `null`).  JavaScript truthiness on
numbers (`x || d`, `if (x)`, `x ? a : b`) treats `0` like a missing value,
so optional numeric fields go through `jsOrQ`/`jsOrN` and a token of `0`
plays the role of a falsy `instrument_token`. -/

/-- One entry of the parsed tick batch. -/
structure RawTick where
  instrument_token : Nat
  last_price : Option ℚ
  volume_traded : Option Nat
  average_traded_price : Option ℚ
  last_traded_quantity : Option Nat
  timestamp : Option Int
  tradingsymbol : Option String
  deriving DecidableEq

/-- `x || d` for an optional number (`0` is falsy). -/
def jsOrQ : Option ℚ → ℚ → ℚ
  | some v, d => if v = 0 then d else v
  | none, d => d

/-- `x || d` for an optional integer count. -/
def jsOrN : Option Nat → Nat → Nat
  | some v, d => if v = 0 then d else v
  | none, d => d

/-- `TickData` from `useTickData` (the random `id` is dropped). -/
structure TickData where
  instrument_token : Nat
  last_price : ℚ
  volume : Nat
  average_price : ℚ
  last_quantity : Nat
  timestamp : Int
  delay : Int
  receivedAt : Int
  tradingsymbol : Option String
  deriving DecidableEq

/-- The body of the `for (const tickData of ticksArray)` loop, threading
the accumulated ticks, the `lastTickTimestamps` map and the count of
"Skipped invalid tick" debug logs (that branch is unreachable: the outer
guard already requires a truthy `instrument_token`). -/
def processEntry (receivedAt : Int)
    (acc : List TickData × List (Nat × Int) × Nat) (entry : Option RawTick) :
    List TickData × List (Nat × Int) × Nat :=
  match entry with
  | none => acc
  | some t =>
    if t.instrument_token ≠ 0 then
      let tickTimestamp : Int :=
        match t.timestamp with
        | some v => if v = 0 then receivedAt else v
        | none => receivedAt
      let lastTickTimeForInstrument := lookupA t.instrument_token acc.2.1
      let interTickDelay : Int :=
        match lastTickTimeForInstrument with
        | some last => if last = 0 then 0 else tickTimestamp - last
        | none => 0
      let lastTs' := setA t.instrument_token tickTimestamp acc.2.1
      let newTick : TickData :=
        { instrument_token := t.instrument_token,
          last_price := jsOrQ t.last_price 0,
          volume := jsOrN t.volume_traded 0,
          average_price := jsOrQ t.average_traded_price (jsOrQ t.last_price 0),
          last_quantity := jsOrN t.last_traded_quantity 0,
          timestamp := tickTimestamp,
          delay := max 0 interTickDelay,
          receivedAt := receivedAt,
          tradingsymbol := t.tradingsymbol }
      if newTick.instrument_token ≠ 0 then
        (acc.1 ++ [newTick], lastTs', acc.2.2)
      else
        (acc.1, lastTs', acc.2.2 + 1)
    else acc

/-- `processTickData(rawData, eventType)`: returns the processed ticks, the
updated `lastTickTimestamps` map, whether a `"data"` alert was recorded
(only when the whole batch fails to parse) and the number of per-entry
skip logs. -/
def processTickData (parsed : Option (List (Option RawTick)))
    (receivedAt : Int) (lastTs : List (Nat × Int)) :
    List TickData × List (Nat × Int) × Bool × Nat :=
  match parsed with
  | none => ([], lastTs, true, 0)
  | some entries =>
    let r := entries.foldl (processEntry receivedAt) ([], lastTs, 0)
    (r.1, r.2.1, false, r.2.2)

/-- State of the primary feed connection owned by `useTickData` (the parts
the claims are about; `pendingTimers`/`nextTimer` model the pool of
pending `setTimeout` callbacks). -/
structure FeedState where
  ticks : List TickData
  totalTicks : Nat
  isFrozen : Bool
  freezeTimer : Option Nat
  pendingTimers : List Nat
  nextTimer : Nat
  lastTs : List (Nat × Int)
  dataAlerts : Nat
  delayAlerts : Nat
  deriving DecidableEq

/-- `clearTimeout(freezeTimeoutRef.current)` followed by arming a fresh
freeze watchdog via `setTimeout`. -/
def rearmFreezeWatchdog (s : FeedState) : FeedState :=
  let s1 :=
    match s.freezeTimer with
    | some t => { s with pendingTimers := s.pendingTimers.filter (fun x => x ≠ t) }
    | none => s
  { s1 with freezeTimer := some s1.nextTimer,
            pendingTimers := s1.nextTimer :: s1.pendingTimers,
            nextTimer := s1.nextTimer + 1 }

/-- The `tick` event listener of `connectToSSE`: process the batch, and if
at least one tick came out, store the ticks, clear the frozen flag, check
for high inter-tick delays and re-arm the freeze watchdog. -/
def onTickEvent (parsed : Option (List (Option RawTick))) (receivedAt : Int)
    (s : FeedState) : FeedState :=
  let r := processTickData parsed receivedAt s.lastTs
  let s1 := { s with lastTs := r.2.1,
                     dataAlerts := s.dataAlerts + (if r.2.2.1 then 1 else 0) }
  if 0 < r.1.length then
    let s2 := { s1 with ticks := (r.1 ++ s1.ticks).take 200,
                        totalTicks := s1.totalTicks + r.1.length,
                        isFrozen := false,
                        delayAlerts := s1.delayAlerts +
                          (if 0 < (r.1.filter (fun t : TickData => 1000 < t.delay)).length
                           then 1 else 0) }
    rearmFreezeWatchdog s2
  else s1

/-- The reconnection bookkeeping of `connectToSSE`:
`connectionAttempts`, the connection status string and the delay of the
most recently scheduled reconnect. -/
structure ConnState where
  attempts : Nat
  connectionStatus : String
  scheduledReconnectDelay : Option Nat
  deriving DecidableEq

def ConnState.initial : ConnState :=
  { attempts := 0, connectionStatus := "disconnected",
    scheduledReconnectDelay := none }

/-- Entry of `connectToSSE`: `connectionAttempts.current++` and
`setConnectionStatus("connecting")`. -/
def connStart (s : ConnState) : ConnState :=
  { s with attempts := s.attempts + 1, connectionStatus := "connecting" }

/-- `eventSource.onopen`: connected, attempt counter reset to 0. -/
def connOnOpen (s : ConnState) : ConnState :=
  { s with connectionStatus := "connected", attempts := 0 }

/-- `eventSource.onerror` with `readyState === CLOSED`: disconnect and
schedule a reconnect after `min(5000 * 2^(attempts-1), 30000)` ms. -/
def connOnErrorClosed (s : ConnState) : ConnState :=
  { s with connectionStatus := "disconnected",
           scheduledReconnectDelay :=
             some (min (5000 * 2 ^ (s.attempts - 1)) 30000) }

inductive ConnEvent
  | connect | opened | errorClosed
  deriving DecidableEq

def connStep (s : ConnState) : ConnEvent → ConnState
  | .connect => connStart s
  | .opened => connOnOpen s
  | .errorClosed => connOnErrorClosed s

def runConn (evs : List ConnEvent) (s : ConnState) : ConnState :=
  evs.foldl connStep s

/-! ## Feed connector, ancillary feed (`useUpstoxTickData`) -/

/-- Association-list helpers for the string-keyed
`lastTickForInstrument` map. -/
def lookupS {α : Type} (k : String) : List (String × α) → Option α
  | [] => none
  | (k', v) :: t => if k = k' then some v else lookupS k t

def setS {α : Type} (k : String) (v : α) : List (String × α) → List (String × α)
  | [] => [(k, v)]
  | (k', v') :: t => if k = k' then (k, v) :: t else (k', v') :: setS k v t

/-- `ltpc` sub-object of an Upstox `live_feed` entry. -/
structure Ltpc where
  ltp : Option ℚ
  ltq : Option ℚ
  cp : Option ℚ
  ltt : Option Int
  deriving DecidableEq

/-- One entry of `payload.feeds`, reduced to the paths the handler reads. -/
structure UpstoxFeedItem where
  ltpc : Option Ltpc            -- item?.ff?.marketFF?.ltpc
  ohlcLastVolume : Option Nat   -- item?.ff?.marketFF?.marketOHLC?.ohlc?.at(-1)?.volume
  itemVolume : Option Nat       -- item.volume
  deriving DecidableEq

/-- Parsed message payload: its `type` tag and optional `feeds` object. -/
structure UpstoxPayload where
  type : String
  feeds : Option (List (String × UpstoxFeedItem))
  deriving DecidableEq

/-- `UpstoxTickData` from the hook (the `id` template string is dropped). -/
structure UpstoxTickData where
  instrument_token : String
  last_price : ℚ
  last_quantity : ℚ
  average_price : ℚ
  volume : Nat
  timestamp : Int
  receivedAt : Int
  delay : Int
  deriving DecidableEq

/-- The `for (const [key, item] of Object.entries(payload.feeds))` loop:
entries without a truthy `ltp` are skipped; `??` is nullish (so `ltt = 0`
is used as-is) while `prev ? ts - prev : 0` is truthy (so a stored `0` is
treated as unseen). -/
def upstoxProcessFeeds (now : Int) (feeds : List (String × UpstoxFeedItem))
    (lastTs : List (String × Int)) :
    List UpstoxTickData × List (String × Int) :=
  feeds.foldl (fun acc kv =>
    match kv.2.ltpc with
    | none => acc
    | some l =>
      match l.ltp with
      | none => acc
      | some ltp =>
        if ltp = 0 then acc
        else
          let ts := l.ltt.getD now
          let prev := lookupS kv.1 acc.2
          let delay : Int :=
            match prev with
            | some p => if p = 0 then 0 else ts - p
            | none => 0
          (acc.1 ++ [{ instrument_token := kv.1,
                       last_price := ltp,
                       last_quantity := l.ltq.getD 0,
                       average_price := l.cp.getD ltp,
                       volume := kv.2.ohlcLastVolume.getD (kv.2.itemVolume.getD 0),
                       timestamp := ts,
                       receivedAt := now,
                       delay := delay }],
           setS kv.1 ts acc.2)) ([], lastTs)

/-- State owned by `useUpstoxTickData`. -/
structure UpstoxState where
  ticks : List UpstoxTickData
  alertsCount : Nat
  isFrozen : Bool
  freezeTimer : Option Nat
  pendingTimers : List Nat
  nextTimer : Nat
  lastTs : List (String × Int)
  deriving DecidableEq

/-- `scheduleFreeze()`: cancel the previous freeze timer and arm a fresh
30 s one. -/
def scheduleFreeze (s : UpstoxState) : UpstoxState :=
  let s1 :=
    match s.freezeTimer with
    | some t => { s with pendingTimers := s.pendingTimers.filter (fun x => x ≠ t) }
    | none => s
  { s1 with freezeTimer := some s1.nextTimer,
            pendingTimers := s1.nextTimer :: s1.pendingTimers,
            nextTimer := s1.nextTimer + 1 }

/-- `es.onmessage`: re-arm the watchdog first, then parse (`none` = parse
error, recorded as an alert), then emit ticks for a `live_feed` payload;
only a non-empty batch of new ticks clears the frozen flag. -/
def upstoxOnMessage (payload : Option UpstoxPayload) (now : Int)
    (s : UpstoxState) : UpstoxState :=
  let s0 := scheduleFreeze s
  match payload with
  | none => { s0 with alertsCount := s0.alertsCount + 1 }
  | some p =>
    if p.type = "live_feed" then
      match p.feeds with
      | some feeds =>
        let r := upstoxProcessFeeds now feeds s0.lastTs
        let s1 := { s0 with lastTs := r.2 }
        if r.1.length ≠ 0 then
          { s1 with ticks := (r.1 ++ s1.ticks).take 1000, isFrozen := false }
        else s1
      | none => s0
    else s0

/-! ## Claim C7 -/

/-- C7: after two failed connection attempts, the third drop schedules the
reconnect after `min(base * 2^2, cap)` ms = `min(5000 * 4, 30000)` ms
= 20 s, and a successful open resets the attempt counter to 0. -/
theorem claim_C7_reconnect_backoff :
    (runConn [ConnEvent.connect, ConnEvent.errorClosed, ConnEvent.connect,
              ConnEvent.errorClosed, ConnEvent.connect, ConnEvent.errorClosed]
        ConnState.initial).scheduledReconnectDelay
      = some (min (5000 * 2 ^ 2) 30000) ∧
    min (5000 * 2 ^ 2) 30000 = 20000 ∧
    (∀ s : ConnState, (connOnOpen s).attempts = 0) := by
  refine ⟨rfl, rfl, fun s => rfl⟩

/-! ## Claim C9 -/

/-- C9 (counterexample): a three-entry batch with one malformed entry
(`none`, i.e. not a tick object) between two valid ticks yields exactly two
ticks, but no `"data"` alert is recorded and even the per-entry skip log is
never reached — the malformed entry is skipped silently, against the
claim's "a ParseError diagnostic is recorded". -/
theorem claim_C9_no_diagnostic_counterexample :
    ((processTickData
        (some [some ⟨7, some 100, some 10, some 99, some 1, some 111, none⟩,
               none,
               some ⟨8, some 200, some 20, some 199, some 2, some 222, none⟩])
        1000 []).1.length = 2) ∧
    ((processTickData
        (some [some ⟨7, some 100, some 10, some 99, some 1, some 111, none⟩,
               none,
               some ⟨8, some 200, some 20, some 199, some 2, some 222, none⟩])
        1000 []).2.2.1 = false) ∧
    ((processTickData
        (some [some ⟨7, some 100, some 10, some 99, some 1, some 111, none⟩,
               none,
               some ⟨8, some 200, some 20, some 199, some 2, some 222, none⟩])
        1000 []).2.2.2 = 0) := by
  refine ⟨?_, rfl, ?_⟩ <;> decide

/-- C9 (amended): one malformed entry among valid entries in a parsed batch
is skipped silently — exactly the valid entries' ticks are emitted, the
result is identical to processing the batch without the malformed entry,
and no diagnostic of any kind is recorded for it; a `"data"` diagnostic is
recorded only when the whole batch fails to parse (and then no ticks are
emitted). -/
theorem claim_C9_malformed_entry_skipped_silently
    (a b : RawTick) (ra : Int) (lastTs : List (Nat × Int))
    (ha : a.instrument_token ≠ 0) (hb : b.instrument_token ≠ 0) :
    ((processTickData (some [some a, none, some b]) ra lastTs).1.map
        (fun t => t.instrument_token) = [a.instrument_token, b.instrument_token]) ∧
    (processTickData (some [some a, none, some b]) ra lastTs
      = processTickData (some [some a, some b]) ra lastTs) ∧
    ((processTickData (some [some a, none, some b]) ra lastTs).2.2.1 = false) ∧
    ((processTickData (some [some a, none, some b]) ra lastTs).2.2.2 = 0) ∧
    (processTickData none ra lastTs = ([], lastTs, true, 0)) := by
  refine ⟨?_, rfl, rfl, ?_, rfl⟩
  · simp [processTickData, processEntry, ha, hb]
  · simp [processTickData, processEntry, ha, hb]

/-- Witness for C9 (amended) on the concrete three-entry batch. -/
theorem claim_C9_malformed_entry_skipped_silently_witness :
    ((7 : Nat) ≠ 0) ∧ ((8 : Nat) ≠ 0) ∧
    (((processTickData
        (some [some ⟨7, some 100, some 10, some 99, some 1, some 111, none⟩,
               none,
               some ⟨8, some 200, some 20, some 199, some 2, some 222, none⟩])
        1000 []).1.map (fun t => t.instrument_token) = [7, 8]) ∧
     (processTickData
        (some [some ⟨7, some 100, some 10, some 99, some 1, some 111, none⟩,
               none,
               some ⟨8, some 200, some 20, some 199, some 2, some 222, none⟩])
        1000 []
       = processTickData
        (some [some ⟨7, some 100, some 10, some 99, some 1, some 111, none⟩,
               some ⟨8, some 200, some 20, some 199, some 2, some 222, none⟩])
        1000 []) ∧
     ((processTickData
        (some [some ⟨7, some 100, some 10, some 99, some 1, some 111, none⟩,
               none,
               some ⟨8, some 200, some 20, some 199, some 2, some 222, none⟩])
        1000 []).2.2.1 = false) ∧
     ((processTickData
        (some [some ⟨7, some 100, some 10, some 99, some 1, some 111, none⟩,
               none,
               some ⟨8, some 200, some 20, some 199, some 2, some 222, none⟩])
        1000 []).2.2.2 = 0) ∧
     (processTickData none 1000 ([] : List (Nat × Int)) = ([], [], true, 0))) := by
  exact ⟨by decide, by decide,
    claim_C9_malformed_entry_skipped_silently
      ⟨7, some 100, some 10, some 99, some 1, some 111, none⟩
      ⟨8, some 200, some 20, some 199, some 2, some 222, none⟩
      1000 [] (by decide) (by decide)⟩

/-! ## Claim C5 -/

theorem processEntry_delay_nonneg (ra : Int)
    (acc : List TickData × List (Nat × Int) × Nat)
    (he : ∀ t ∈ acc.1, 0 ≤ t.delay) (entry : Option RawTick) :
    ∀ t ∈ (processEntry ra acc entry).1, 0 ≤ t.delay := by
  cases entry with
  | none => exact he
  | some tr =>
    simp only [processEntry]
    by_cases h0 : tr.instrument_token ≠ 0
    · simp only [h0, if_true, if_pos h0]
      intro t ht
      rcases List.mem_append.mp ht with h1 | h2
      · exact he t h1
      · rw [List.mem_singleton] at h2
        subst h2
        exact le_max_left _ _
    · rw [if_neg h0]
      exact he

theorem foldl_processEntry_delay_nonneg (ra : Int) :
    ∀ (entries : List (Option RawTick)) (acc : List TickData × List (Nat × Int) × Nat),
      (∀ t ∈ acc.1, 0 ≤ t.delay) →
      ∀ t ∈ (entries.foldl (processEntry ra) acc).1, 0 ≤ t.delay := by
  intro entries
  induction entries with
  | nil => intro acc h; simpa using h
  | cons e es ih =>
    intro acc h
    exact ih _ (processEntry_delay_nonneg ra acc h e)

/-- C5 (counterexample): when a source timestamp goes backwards, the
primary feed clamps the emitted delay to `0` (so it does not equal
`current − last`), and the ancillary feed emits the raw difference, which
is negative — against the claim's "the emitted delay is ≥ 0 in every
case". -/
theorem claim_C5_delay_counterexample :
    (((upstoxProcessFeeds 1000
        [("k", ⟨some ⟨some 1, none, none, some 500⟩, none, none⟩)]
        [("k", 1000)]).1.map (fun t => t.delay)) = [(-500 : Int)]) ∧
    ((-500 : Int) < 0) ∧
    (((processTickData
        (some [some ⟨7, some 100, none, none, none, some 500, none⟩])
        2000 [(7, 1000)]).1.map (fun t => t.delay)) = [(0 : Int)]) ∧
    ((0 : Int) ≠ 500 - 1000) := by
  refine ⟨?_, by decide, ?_, by decide⟩ <;> decide

/-- C5 (amended): the primary feed emits
`delay = 0` when the instrument is unseen and `max 0 (current − last)`
otherwise — never negative but also not equal to `current − last` when the
timestamp goes backwards; the ancillary feed emits the unclamped
`current − last` (negative when the timestamp goes backwards) and `0` when
unseen (or when the stored timestamp is `0`, which is falsy). -/
theorem claim_C5_inter_tick_delay :
    (∀ (parsed : Option (List (Option RawTick))) (ra : Int)
        (lastTs : List (Nat × Int)),
      ∀ t ∈ (processTickData parsed ra lastTs).1, 0 ≤ t.delay) ∧
    (∀ (tr : RawTick) (ra ts last : Int) (lastTs : List (Nat × Int)),
      tr.instrument_token ≠ 0 → tr.timestamp = some ts → ts ≠ 0 →
      lookupA tr.instrument_token lastTs = some last → last ≠ 0 →
      (processTickData (some [some tr]) ra lastTs).1.map (fun x => x.delay)
        = [max 0 (ts - last)]) ∧
    (∀ (tr : RawTick) (ra : Int) (lastTs : List (Nat × Int)),
      tr.instrument_token ≠ 0 →
      lookupA tr.instrument_token lastTs = none →
      (processTickData (some [some tr]) ra lastTs).1.map (fun x => x.delay)
        = [(0 : Int)]) ∧
    (∀ (key : String) (ltq cp : Option ℚ) (v1 v2 : Option Nat)
        (now prevTs ts : Int) (v : ℚ) (lastTs : List (String × Int)),
      lookupS key lastTs = some prevTs → prevTs ≠ 0 → v ≠ 0 →
      (upstoxProcessFeeds now [(key, ⟨some ⟨some v, ltq, cp, some ts⟩, v1, v2⟩)]
          lastTs).1.map (fun x => x.delay) = [ts - prevTs]) ∧
    (∀ (key : String) (ltq cp : Option ℚ) (v1 v2 : Option Nat)
        (now ts : Int) (v : ℚ) (lastTs : List (String × Int)),
      lookupS key lastTs = none → v ≠ 0 →
      (upstoxProcessFeeds now [(key, ⟨some ⟨some v, ltq, cp, some ts⟩, v1, v2⟩)]
          lastTs).1.map (fun x => x.delay) = [(0 : Int)]) := by
  refine ⟨?_, ?_, ?_, ?_, ?_⟩
  · intro parsed ra lastTs
    cases parsed with
    | none => simp [processTickData]
    | some entries =>
      intro t ht
      exact foldl_processEntry_delay_nonneg ra entries ([], lastTs, 0)
        (by simp) t ht
  · intro tr ra ts last lastTs h0 hts htsne hlast hlne
    simp [processTickData, processEntry, h0, hts, htsne, hlast, hlne]
  · intro tr ra lastTs h0 hlast
    cases hts : tr.timestamp with
    | none => simp [processTickData, processEntry, h0, hts, hlast]
    | some v =>
      by_cases hv : v = 0 <;>
        simp [processTickData, processEntry, h0, hts, hlast, hv]
  · intro key ltq cp v1 v2 now prevTs ts v lastTs hprev hpne hv
    simp [upstoxProcessFeeds, hprev, hpne, hv]
  · intro key ltq cp v1 v2 now ts v lastTs hprev hv
    simp [upstoxProcessFeeds, hprev, hv]

/-- Witness for C5 (amended): a seen instrument on each feed, with the
timestamp moving forward on the primary feed (delay `max 0 500 = 500`) and
backwards on the ancillary feed (delay `−500`). -/
theorem claim_C5_inter_tick_delay_witness :
    ((7 : Nat) ≠ 0) ∧
    ((RawTick.timestamp ⟨7, some 100, none, none, none, some 1500, none⟩)
      = some 1500) ∧
    ((1500 : Int) ≠ 0) ∧
    (lookupA 7 [(7, (1000 : Int))] = some 1000) ∧
    ((1000 : Int) ≠ 0) ∧
    ((processTickData (some [some ⟨7, some 100, none, none, none, some 1500, none⟩])
        2000 [(7, 1000)]).1.map (fun x => x.delay) = [max 0 (1500 - 1000)]) ∧
    (lookupS "k" [("k", (1000 : Int))] = some 1000) ∧
    ((upstoxProcessFeeds 2000 [("k", ⟨some ⟨some 1, none, none, some 500⟩, none, none⟩)]
        [("k", 1000)]).1.map (fun x => x.delay) = [(500 : Int) - 1000]) := by
  refine ⟨by decide, by decide, by decide, by decide, by decide, ?_, by decide, ?_⟩
  · exact (claim_C5_inter_tick_delay).2.1
      ⟨7, some 100, none, none, none, some 1500, none⟩ 2000 1500 1000
      [(7, 1000)] (by decide) rfl (by decide) (by decide) (by decide)
  · exact (claim_C5_inter_tick_delay).2.2.2.1 "k" none none none none
      2000 1000 500 1 [("k", 1000)] (by decide) (by decide) (by decide)

/-! ## Claim C6 -/

theorem scheduleFreeze_spec (s : UpstoxState) :
    (scheduleFreeze s).freezeTimer = some s.nextTimer ∧
    (scheduleFreeze s).nextTimer = s.nextTimer + 1 ∧
    (scheduleFreeze s).lastTs = s.lastTs ∧
    s.nextTimer ∈ (scheduleFreeze s).pendingTimers ∧
    (∀ t, s.freezeTimer = some t → t ≠ s.nextTimer →
      t ∉ (scheduleFreeze s).pendingTimers) := by
  cases hf : s.freezeTimer with
  | none =>
    refine ⟨?_, ?_, ?_, ?_, ?_⟩ <;> simp [scheduleFreeze, hf]
  | some t0 =>
    refine ⟨?_, ?_, ?_, ?_, ?_⟩
    · simp [scheduleFreeze, hf]
    · simp [scheduleFreeze, hf]
    · simp [scheduleFreeze, hf]
    · simp [scheduleFreeze, hf]
    · intro t ht htne hmem
      have heq : t0 = t := by injection ht
      subst heq
      simp only [scheduleFreeze, hf] at hmem
      rcases List.mem_cons.mp hmem with h1 | h2
      · exact htne h1
      · rw [List.mem_filter] at h2
        simpa using h2.2

theorem rearmFreezeWatchdog_spec (s : FeedState) :
    (rearmFreezeWatchdog s).freezeTimer = some s.nextTimer ∧
    s.nextTimer ∈ (rearmFreezeWatchdog s).pendingTimers ∧
    (∀ t, s.freezeTimer = some t → t ≠ s.nextTimer →
      t ∉ (rearmFreezeWatchdog s).pendingTimers) ∧
    (rearmFreezeWatchdog s).isFrozen = s.isFrozen := by
  cases hf : s.freezeTimer with
  | none =>
    refine ⟨?_, ?_, ?_, ?_⟩ <;> simp [rearmFreezeWatchdog, hf]
  | some t0 =>
    refine ⟨?_, ?_, ?_, ?_⟩
    · simp [rearmFreezeWatchdog, hf]
    · simp [rearmFreezeWatchdog, hf]
    · intro t ht htne hmem
      have heq : t0 = t := by injection ht
      subst heq
      simp only [rearmFreezeWatchdog, hf] at hmem
      rcases List.mem_cons.mp hmem with h1 | h2
      · exact htne h1
      · rw [List.mem_filter] at h2
        simpa using h2.2
    · simp [rearmFreezeWatchdog, hf]

theorem upstoxOnMessage_watchdog (payload : Option UpstoxPayload) (now : Int)
    (s : UpstoxState) :
    (upstoxOnMessage payload now s).freezeTimer = (scheduleFreeze s).freezeTimer ∧
    (upstoxOnMessage payload now s).pendingTimers = (scheduleFreeze s).pendingTimers := by
  cases payload with
  | none => exact ⟨rfl, rfl⟩
  | some p =>
    simp only [upstoxOnMessage]
    by_cases ht : p.type = "live_feed"
    · rw [if_pos ht]
      cases hf : p.feeds with
      | none => exact ⟨rfl, rfl⟩
      | some feeds =>
        by_cases hn : (upstoxProcessFeeds now feeds (scheduleFreeze s).lastTs).1.length ≠ 0
        · dsimp only
          rw [if_pos hn]
          exact ⟨rfl, rfl⟩
        · dsimp only
          rw [if_neg hn]
          exact ⟨rfl, rfl⟩
    · rw [if_neg ht]
      exact ⟨rfl, rfl⟩

/-- A frozen ancillary-feed state with watchdog timer 0 pending. -/
def upstoxFrozenS : UpstoxState :=
  { ticks := [], alertsCount := 0, isFrozen := true, freezeTimer := some 0,
    pendingTimers := [0], nextTimer := 1, lastTs := [] }

/-- A frozen primary-feed state with watchdog timer 0 pending. -/
def frozenFeedS : FeedState :=
  { ticks := [], totalTicks := 0, isFrozen := true, freezeTimer := some 0,
    pendingTimers := [0], nextTimer := 1, lastTs := [], dataAlerts := 0,
    delayAlerts := 0 }

/-- C6 (counterexample): a successfully parsed inbound message that yields
no ticks does not clear the frozen flag on either feed — on the ancillary
feed an empty `live_feed` payload re-arms the watchdog but leaves
`isFrozen` set (and records no error), and on the primary feed an empty
batch leaves the watchdog and the frozen flag entirely untouched. -/
theorem claim_C6_frozen_not_cleared_counterexample :
    ((upstoxOnMessage (some ⟨"live_feed", some []⟩) 1000 upstoxFrozenS).isFrozen
      = true) ∧
    ((upstoxOnMessage (some ⟨"live_feed", some []⟩) 1000 upstoxFrozenS).alertsCount
      = 0) ∧
    ((upstoxOnMessage (some ⟨"live_feed", some []⟩) 1000 upstoxFrozenS).freezeTimer
      = some 1) ∧
    ((onTickEvent (some []) 1000 frozenFeedS).isFrozen = true) ∧
    ((onTickEvent (some []) 1000 frozenFeedS).freezeTimer = frozenFeedS.freezeTimer) ∧
    ((onTickEvent (some []) 1000 frozenFeedS).pendingTimers
      = frozenFeedS.pendingTimers) ∧
    ((onTickEvent (some []) 1000 frozenFeedS).dataAlerts = 0) := by
  refine ⟨?_, ?_, ?_, ?_, ?_, ?_, ?_⟩ <;> decide

/-- C6 (amended): on the ancillary feed, every inbound message — ticks or
not — re-arms the freeze watchdog (fresh timer armed, previous one
cancelled), but only a message yielding at least one tick clears the
frozen flag; on the primary feed, a message yielding at least one tick
clears the frozen flag and re-arms the watchdog (a message yielding no
ticks touches neither). -/
theorem claim_C6_watchdog_rearm_and_frozen_clear :
    (∀ (payload : Option UpstoxPayload) (now : Int) (s : UpstoxState),
      (upstoxOnMessage payload now s).freezeTimer = some s.nextTimer ∧
      s.nextTimer ∈ (upstoxOnMessage payload now s).pendingTimers ∧
      (∀ t, s.freezeTimer = some t → t ≠ s.nextTimer →
        t ∉ (upstoxOnMessage payload now s).pendingTimers)) ∧
    (∀ (feeds : List (String × UpstoxFeedItem)) (now : Int) (s : UpstoxState),
      (upstoxProcessFeeds now feeds s.lastTs).1.length ≠ 0 →
      (upstoxOnMessage (some ⟨"live_feed", some feeds⟩) now s).isFrozen = false) ∧
    (∀ (parsed : Option (List (Option RawTick))) (ra : Int) (s : FeedState),
      0 < (processTickData parsed ra s.lastTs).1.length →
      (onTickEvent parsed ra s).isFrozen = false ∧
      (onTickEvent parsed ra s).freezeTimer = some s.nextTimer ∧
      s.nextTimer ∈ (onTickEvent parsed ra s).pendingTimers ∧
      (∀ t, s.freezeTimer = some t → t ≠ s.nextTimer →
        t ∉ (onTickEvent parsed ra s).pendingTimers)) := by
  refine ⟨?_, ?_, ?_⟩
  · intro payload now s
    obtain ⟨h1, h2⟩ := upstoxOnMessage_watchdog payload now s
    obtain ⟨g1, _, _, g4, g5⟩ := scheduleFreeze_spec s
    rw [h1, h2]
    exact ⟨g1, g4, g5⟩
  · intro feeds now s hn
    obtain ⟨_, _, g3, _, _⟩ := scheduleFreeze_spec s
    simp only [upstoxOnMessage, if_true]
    rw [if_pos (show (upstoxProcessFeeds now feeds (scheduleFreeze s).lastTs).1.length ≠ 0
          by rw [g3]; exact hn)]
  · intro parsed ra s hn
    simp only [onTickEvent]
    rw [if_pos hn]
    obtain ⟨r1, r2, r3, r4⟩ := rearmFreezeWatchdog_spec { s with
      lastTs := (processTickData parsed ra s.lastTs).2.1,
      dataAlerts := s.dataAlerts +
        (if (processTickData parsed ra s.lastTs).2.2.1 then 1 else 0),
      ticks := ((processTickData parsed ra s.lastTs).1 ++
        ({ s with lastTs := (processTickData parsed ra s.lastTs).2.1,
                  dataAlerts := s.dataAlerts +
                    (if (processTickData parsed ra s.lastTs).2.2.1 then 1 else 0) } :
          FeedState).ticks).take 200,
      totalTicks := s.totalTicks + (processTickData parsed ra s.lastTs).1.length,
      isFrozen := false,
      delayAlerts := s.delayAlerts +
        (if 0 < ((processTickData parsed ra s.lastTs).1.filter
            (fun t : TickData => 1000 < t.delay)).length then 1 else 0) }
    exact ⟨r4, r1, r2, r3⟩

/-- Witness for C6 (amended): a one-tick `live_feed` message clears the
frozen flag on the ancillary feed; a one-tick batch does the same and
re-arms the watchdog on the primary feed. -/
theorem claim_C6_watchdog_rearm_and_frozen_clear_witness :
    ((upstoxProcessFeeds 1000
        [("k", ⟨some ⟨some 5, none, none, some 900⟩, none, none⟩)]
        upstoxFrozenS.lastTs).1.length ≠ 0) ∧
    ((upstoxOnMessage
        (some ⟨"live_feed",
               some [("k", ⟨some ⟨some 5, none, none, some 900⟩, none, none⟩)]⟩)
        1000 upstoxFrozenS).isFrozen = false) ∧
    (0 < (processTickData (some [some ⟨7, some 100, none, none, none, some 900, none⟩])
        1000 frozenFeedS.lastTs).1.length) ∧
    ((onTickEvent (some [some ⟨7, some 100, none, none, none, some 900, none⟩])
        1000 frozenFeedS).isFrozen = false ∧
     (onTickEvent (some [some ⟨7, some 100, none, none, none, some 900, none⟩])
        1000 frozenFeedS).freezeTimer = some frozenFeedS.nextTimer ∧
     frozenFeedS.nextTimer ∈ (onTickEvent
        (some [some ⟨7, some 100, none, none, none, some 900, none⟩])
        1000 frozenFeedS).pendingTimers ∧
     (∀ t, frozenFeedS.freezeTimer = some t → t ≠ frozenFeedS.nextTimer →
       t ∉ (onTickEvent (some [some ⟨7, some 100, none, none, none, some 900, none⟩])
        1000 frozenFeedS).pendingTimers)) := by
  refine ⟨by decide, ?_, by decide, ?_⟩
  · exact (claim_C6_watchdog_rearm_and_frozen_clear).2.1
      [("k", ⟨some ⟨some 5, none, none, some 900⟩, none, none⟩)] 1000
      upstoxFrozenS (by decide)
  · exact (claim_C6_watchdog_rearm_and_frozen_clear).2.2
      (some [some ⟨7, some 100, none, none, none, some 900, none⟩]) 1000
      frozenFeedS (by decide)

end MonitoringTicks
